import Mathlib

/-!
Shallow embedding of `src/Parsers/Access/ASTSettingsProfileElement.cpp`
(ClickHouse settings-profile-element AST formatter).

The C++ code writes incrementally into an append-only output stream
`settings.ostr`; every `ostr << x` is embedded as string concatenation, so each
formatting function takes the current stream contents `ostr : String` and
returns the new contents.  The C++ functions are pure apart from this stream
(and the one bulk flag mutation, embedded as a function returning the updated
list), so translation into total Lean functions is direct.

External collaborators whose sources are not part of the given fragment
(`quoteString`, `backQuote`, `FieldVisitorToString`, `formatSettingName`,
the highlight marker constants, and the per-element `empty()` predicate
declared in the excluded header) are modelled from the spec; each carries a
doc comment saying so.
-/

set_option maxHeartbeats 1000000

namespace DB

/-- Writability modes of a setting constraint.  The member `MAX` is the
non-data sentinel marking the end of the enum range (see the `switch` in
`ASTSettingsProfileElement::formatImpl`, which has an empty case for it). -/
inductive SettingConstraintWritability where
  | WRITABLE
  | CONST
  | CHANGEABLE_IN_READONLY
  | MAX
deriving DecidableEq

/-- Modelled from the spec: a literal value (`Field`).  The literal type itself
is an external collaborator (§1, §6); only two representative variants are
needed here: an unsigned integer and a string. -/
inductive Field where
  | UInt64Val (n : Nat)
  | StringVal (s : String)
deriving DecidableEq

/-- One character of a quoted string, escaping the quote character and the
backslash with a backslash.  Support for the modelled quoting collaborators
below. -/
def escapeChar (q : Char) (c : Char) : String :=
  if c = q ∨ c = '\\' then "\\" ++ String.singleton c else String.singleton c

/-- Modelled from the spec: string-literal quoting (`quoteString` from
`Common/quoteString.h`, not in the fragment) — a total function wrapping the
string in single quotes with escaping, "always produces a parseable literal
for any input string" (§4.1, §6). -/
def quoteString (s : String) : String :=
  "\x27" ++ String.join (s.data.map (escapeChar '\x27')) ++ "\x27"

/-- Modelled from the spec: identifier back-quoting (`backQuote` from
`Common/quoteString.h`, not in the fragment) — a total function wrapping the
string in backquotes with escaping (§4.1, §6). -/
def backQuote (s : String) : String :=
  "\x60" ++ String.join (s.data.map (escapeChar '\x60')) ++ "\x60"

/-- Modelled from the spec: literal-to-text conversion
(`applyVisitor(FieldVisitorToString{}, ·)` from `Common/FieldVisitorToString.h`,
not in the fragment) — a total function from any literal to a parseable
textual form (§6): integers print in decimal, strings as quoted literals. -/
def FieldVisitorToString : Field → String
  | .UInt64Val n => toString n
  | .StringVal s => quoteString s

/-- Modelled from the spec: the keyword-highlight opening marker
(`IAST::hilite_keyword`, declared in the excluded `IAST.h`).  Keywords are
"wrapped in highlight markers" (§1); the exact marker text is cosmetic. -/
def hilite_keyword : String := "\x1b[1m"

/-- Modelled from the spec: the highlight closing marker (`IAST::hilite_none`,
declared in the excluded `IAST.h`). -/
def hilite_none : String := "\x1b[0m"

/-- The slice of `IAST::FormatSettings` this fragment consults besides the
output stream: the cosmetic highlight toggle. -/
structure FormatSettings where
  hilite : Bool
deriving DecidableEq

/-- Modelled from the spec: setting-name canonicalization
(`formatSettingName` from `Parsers/formatSettingName.h`, not in the fragment) —
a total function writing the canonical textual form of a raw name to the
stream (§6).  No claim depends on the canonical form, so it is modelled as
writing the name itself. -/
def formatSettingName (setting_name : String) (ostr : String) : String :=
  ostr ++ setting_name

/-- The AST node for one settings-profile element.  Field-for-field from the
use sites in the `.cpp` (the declaring header is excluded; optional fields are
`Option`, and the two C++ `String` fields use `""` for "unset" exactly as the
code's `.empty()` tests do). -/
structure ASTSettingsProfileElement where
  parent_profile : String
  id_mode : Bool
  use_inherit_keyword : Bool
  setting_name : String
  value : Option Field
  min_value : Option Field
  max_value : Option Field
  writability : Option SettingConstraintWritability
deriving DecidableEq

/-- `formatProfileNameOrID` from the anonymous namespace of the `.cpp`:
renders a profile reference target either as `ID(<quoted string>)` or as a
back-quoted identifier. -/
def formatProfileNameOrID (str : String) (is_id : Bool) (settings : FormatSettings)
    (ostr : String) : String :=
  if is_id then
    ostr ++ (if settings.hilite then hilite_keyword else "") ++ "ID"
      ++ (if settings.hilite then hilite_none else "")
      ++ "(" ++ quoteString str ++ ")"
  else
    ostr ++ backQuote str

/-- `ASTSettingsProfileElement::formatImpl`: profile-reference branch when
`parent_profile` is non-empty, otherwise the setting-constraint branch with
its four optional clauses and the writability `switch` (whose sentinel case
`MAX` emits nothing). -/
def ASTSettingsProfileElement.formatImpl (e : ASTSettingsProfileElement)
    (settings : FormatSettings) (ostr : String) : String :=
  if e.parent_profile ≠ "" then
    formatProfileNameOrID e.parent_profile e.id_mode settings
      (ostr ++ (if settings.hilite then hilite_keyword else "")
        ++ (if e.use_inherit_keyword then "INHERIT" else "PROFILE") ++ " "
        ++ (if settings.hilite then hilite_none else ""))
  else
    let ostr := formatSettingName e.setting_name ostr
    let ostr := match e.value with
      | some v => ostr ++ " = " ++ FieldVisitorToString v
      | none => ostr
    let ostr := match e.min_value with
      | some v => ostr ++ (if settings.hilite then hilite_keyword else "") ++ " MIN "
          ++ (if settings.hilite then hilite_none else "") ++ FieldVisitorToString v
      | none => ostr
    let ostr := match e.max_value with
      | some v => ostr ++ (if settings.hilite then hilite_keyword else "") ++ " MAX "
          ++ (if settings.hilite then hilite_none else "") ++ FieldVisitorToString v
      | none => ostr
    match e.writability with
    | some .WRITABLE => ostr ++ (if settings.hilite then hilite_keyword else "")
        ++ " WRITABLE" ++ (if settings.hilite then hilite_none else "")
    | some .CONST => ostr ++ (if settings.hilite then hilite_keyword else "")
        ++ " CONST" ++ (if settings.hilite then hilite_none else "")
    | some .CHANGEABLE_IN_READONLY => ostr ++ (if settings.hilite then hilite_keyword else "")
        ++ " CHANGEABLE_IN_READONLY" ++ (if settings.hilite then hilite_none else "")
    | some .MAX => ostr
    | none => ostr

/-- The list AST node `ASTSettingsProfileElements` (the C++ holds a vector of
shared pointers to elements; pointer indirection is flattened). -/
structure ASTSettingsProfileElements where
  elements : List ASTSettingsProfileElement
deriving DecidableEq

/-- The loop of `ASTSettingsProfileElements::empty`: return `false` at the
first element whose own `empty()` predicate fails, else `true`.  The
per-element predicate `elemEmpty` is declared in the excluded header and "not
reproduced in this fragment" (spec §3), so it is passed as a parameter. -/
def emptyLoop (elemEmpty : ASTSettingsProfileElement → Bool) :
    List ASTSettingsProfileElement → Bool
  | [] => true
  | element :: rest => if ¬ elemEmpty element then false else emptyLoop elemEmpty rest

/-- `ASTSettingsProfileElements::empty`, parameterized by the element-level
predicate (see `emptyLoop`). -/
def ASTSettingsProfileElements.empty (elemEmpty : ASTSettingsProfileElement → Bool)
    (l : ASTSettingsProfileElements) : Bool :=
  emptyLoop elemEmpty l.elements

/-- The comma-joining loop of `ASTSettingsProfileElements::formatImpl`, with
the `need_comma` flag threaded exactly as in the code. -/
def formatLoop (settings : FormatSettings) (need_comma : Bool) (ostr : String) :
    List ASTSettingsProfileElement → String
  | [] => ostr
  | element :: rest =>
      let ostr := if need_comma then ostr ++ ", " else ostr
      formatLoop settings true (element.formatImpl settings ostr) rest

/-- `ASTSettingsProfileElements::formatImpl`: `NONE` when the list-level
`empty()` holds, otherwise the comma-joining loop over all elements. -/
def ASTSettingsProfileElements.formatImpl (elemEmpty : ASTSettingsProfileElement → Bool)
    (l : ASTSettingsProfileElements) (settings : FormatSettings) (ostr : String) : String :=
  if l.empty elemEmpty then
    ostr ++ (if settings.hilite then hilite_keyword else "") ++ "NONE"
      ++ (if settings.hilite then hilite_none else "")
  else
    formatLoop settings false ostr l.elements

/-- `ASTSettingsProfileElements::setUseInheritKeyword`: sets the flag on every
element.  The in-place C++ mutation is embedded as returning the updated
list. -/
def ASTSettingsProfileElements.setUseInheritKeyword (l : ASTSettingsProfileElements)
    (use_inherit_keyword_ : Bool) : ASTSettingsProfileElements :=
  ⟨l.elements.map fun element => { element with use_inherit_keyword := use_inherit_keyword_ }⟩

/-- The ` = <value>` clause of the setting-constraint form, empty when the
field is absent (decomposition of `formatImpl` used in theorem statements). -/
def valueClause : Option Field → String
  | some v => " = " ++ FieldVisitorToString v
  | none => ""

/-- The ` MIN <value>` clause, empty when absent. -/
def minClause (settings : FormatSettings) : Option Field → String
  | some v => (if settings.hilite then hilite_keyword else "") ++ " MIN "
      ++ (if settings.hilite then hilite_none else "") ++ FieldVisitorToString v
  | none => ""

/-- The ` MAX <value>` clause, empty when absent. -/
def maxClause (settings : FormatSettings) : Option Field → String
  | some v => (if settings.hilite then hilite_keyword else "") ++ " MAX "
      ++ (if settings.hilite then hilite_none else "") ++ FieldVisitorToString v
  | none => ""

/-- The keyword the writability `switch` prints for each non-sentinel mode
(the sentinel prints nothing). -/
def writabilityKeyword : SettingConstraintWritability → String
  | .WRITABLE => "WRITABLE"
  | .CONST => "CONST"
  | .CHANGEABLE_IN_READONLY => "CHANGEABLE_IN_READONLY"
  | .MAX => ""

/-- The ` <writability>` clause, empty when absent or when the stored value
is the sentinel. -/
def writabilityClause (settings : FormatSettings) :
    Option SettingConstraintWritability → String
  | some .MAX => ""
  | some w => (if settings.hilite then hilite_keyword else "") ++ " "
      ++ writabilityKeyword w ++ (if settings.hilite then hilite_none else "")
  | none => ""

/-- Joins a list of strings with a separator between consecutive entries and
no leading or trailing separator (spec-side, for the list-formatter claims). -/
def joinSep (sep : String) : List String → String
  | [] => ""
  | [x] => x
  | x :: y :: rest => x ++ sep ++ joinSep sep (y :: rest)

/-- Number of occurrences of `pat` as a contiguous sublist of `s` (counting
start positions). -/
def countOccs (pat : List Char) : List Char → Nat
  | [] => if List.isPrefixOf pat [] then 1 else 0
  | c :: rest => (if List.isPrefixOf pat (c :: rest) then 1 else 0) + countOccs pat rest

/-- Concatenation of `", " ++ <element output>` over a list: what the
comma-joining loop appends once `need_comma` has become true. -/
def commaPrefixed (settings : FormatSettings) : List ASTSettingsProfileElement → String
  | [] => ""
  | e :: rest => ", " ++ e.formatImpl settings "" ++ commaPrefixed settings rest

/-- A plain formatting configuration: highlighting off. -/
def plain : FormatSettings := ⟨false⟩

/-- Sample profile-reference element (spec §8, scenario 3). -/
def refElem : ASTSettingsProfileElement :=
  ⟨"default", false, false, "", none, none, none, none⟩

/-- Sample setting-constraint element with all optional fields present. -/
def setElem : ASTSettingsProfileElement :=
  ⟨"", false, false, "readonly", some (.UInt64Val 1), some (.UInt64Val 0),
    some (.UInt64Val 1), some .CONST⟩

/-- Sample setting-constraint element with no optional fields present. -/
def bareElem : ASTSettingsProfileElement :=
  ⟨"", true, true, "x", none, none, none, none⟩

/-- Sample element storing the sentinel writability value. -/
def sentinelElem : ASTSettingsProfileElement :=
  ⟨"", false, false, "x", none, none, none, some .MAX⟩

/-- Sample element whose string-literal value contains a writability keyword. -/
def cexElem : ASTSettingsProfileElement :=
  ⟨"", false, false, "x", some (.StringVal "CONST"), none, none, some .CONST⟩

/-- An element-level empty predicate holding everywhere (sample instance of the
excluded per-element predicate). -/
def allEmptyPred : ASTSettingsProfileElement → Bool := fun _ => true

/-- An element-level empty predicate holding nowhere (sample instance of the
excluded per-element predicate). -/
def noneEmptyPred : ASTSettingsProfileElement → Bool := fun _ => false

theorem formatProfileNameOrID_append (str : String) (is_id : Bool) (s : FormatSettings)
    (ostr : String) :
    formatProfileNameOrID str is_id s ostr = ostr ++ formatProfileNameOrID str is_id s "" := by
  cases is_id <;>
    simp [formatProfileNameOrID, String.append_assoc, String.empty_append]

theorem formatImpl_append (e : ASTSettingsProfileElement) (s : FormatSettings) (ostr : String) :
    e.formatImpl s ostr = ostr ++ e.formatImpl s "" := by
  obtain ⟨pp, idm, uik, sn, v, mn, mx, w⟩ := e
  by_cases h : pp = ""
  · cases v <;> cases mn <;> cases mx <;> rcases w with _ | w <;> try cases w
    all_goals
      simp [ASTSettingsProfileElement.formatImpl, h, formatSettingName,
        String.append_assoc, String.empty_append]
  · cases idm <;>
      simp [ASTSettingsProfileElement.formatImpl, h, formatProfileNameOrID,
        String.append_assoc, String.empty_append]

theorem emptyLoop_eq_all (p : ASTSettingsProfileElement → Bool)
    (xs : List ASTSettingsProfileElement) : emptyLoop p xs = xs.all p := by
  induction xs with
  | nil => rfl
  | cons x rest ih => cases hx : p x <;> simp [emptyLoop, hx, ih]

theorem formatLoop_true (s : FormatSettings) (xs : List ASTSettingsProfileElement)
    (ostr : String) : formatLoop s true ostr xs = ostr ++ commaPrefixed s xs := by
  induction xs generalizing ostr with
  | nil => simp [formatLoop, commaPrefixed]
  | cons x rest ih =>
      simp only [formatLoop, if_true, commaPrefixed]
      rw [ih, formatImpl_append]
      simp [String.append_assoc]

theorem formatLoop_false_cons (s : FormatSettings) (x : ASTSettingsProfileElement)
    (rest : List ASTSettingsProfileElement) (ostr : String) :
    formatLoop s false ostr (x :: rest) = ostr ++ x.formatImpl s "" ++ commaPrefixed s rest := by
  simp only [formatLoop, if_false]
  rw [formatLoop_true, formatImpl_append]
  simp [String.append_assoc]

theorem joinSep_comma (s : FormatSettings) (x : ASTSettingsProfileElement)
    (rest : List ASTSettingsProfileElement) :
    joinSep ", " ((x :: rest).map fun e => e.formatImpl s "") =
      x.formatImpl s "" ++ commaPrefixed s rest := by
  induction rest generalizing x with
  | nil => simp [joinSep, commaPrefixed]
  | cons y r ih =>
      simp only [List.map_cons, joinSep, commaPrefixed]
      have ih2 := ih y
      simp only [List.map_cons] at ih2
      rw [ih2]
      simp [String.append_assoc]

theorem listFormatImpl_append (p : ASTSettingsProfileElement → Bool)
    (l : ASTSettingsProfileElements) (s : FormatSettings) (ostr : String) :
    l.formatImpl p s ostr = ostr ++ l.formatImpl p s "" := by
  obtain ⟨xs⟩ := l
  by_cases h : ASTSettingsProfileElements.empty p ⟨xs⟩ = true
  · simp [ASTSettingsProfileElements.formatImpl, h, String.append_assoc, String.empty_append]
  · cases xs with
    | nil => simp [ASTSettingsProfileElements.empty, emptyLoop] at h
    | cons x rest =>
        simp only [ASTSettingsProfileElements.formatImpl, h, if_false, Bool.false_eq_true]
        rw [formatLoop_false_cons, formatLoop_false_cons]
        simp [String.append_assoc, String.empty_append]

theorem writabilityClause_some (s : FormatSettings) (w : SettingConstraintWritability)
    (h : w ≠ .MAX) :
    writabilityClause s (some w) = (if s.hilite then hilite_keyword else "") ++ " "
      ++ writabilityKeyword w ++ (if s.hilite then hilite_none else "") := by
  cases w <;> simp_all [writabilityClause, writabilityKeyword, String.append_assoc]

theorem formatImpl_setting_constraint (e : ASTSettingsProfileElement) (s : FormatSettings)
    (ostr : String) (h : e.parent_profile = "") :
    e.formatImpl s ostr = formatSettingName e.setting_name ostr
      ++ valueClause e.value ++ minClause s e.min_value ++ maxClause s e.max_value
      ++ writabilityClause s e.writability := by
  obtain ⟨pp, idm, uik, sn, v, mn, mx, w⟩ := e
  subst h
  cases v <;> cases mn <;> cases mx <;> rcases w with _ | w <;> try cases w
  all_goals
    simp [ASTSettingsProfileElement.formatImpl, formatSettingName, valueClause,
      minClause, maxClause, writabilityClause, writabilityKeyword,
      String.append_assoc, String.empty_append]

/-- Claim C1: a profile-reference element (non-empty `parent_profile`) formats
to exactly the keyword `INHERIT` (when `use_inherit_keyword`) or `PROFILE`, a
space, then the NameOrIdFormatter rendering of `(parent_profile, id_mode)` —
and nothing else: `setting_name`, `value`, `min_value`, `max_value` and
`writability` are never consulted (replacing them arbitrarily leaves the
output unchanged). -/
theorem claim_C1 (e : ASTSettingsProfileElement) (s : FormatSettings) (ostr : String)
    (n : String) (v mn mx : Option Field) (w : Option SettingConstraintWritability)
    (h : e.parent_profile ≠ "") :
    e.formatImpl s ostr = ostr ++ (if s.hilite then hilite_keyword else "")
        ++ (if e.use_inherit_keyword then "INHERIT" else "PROFILE") ++ " "
        ++ (if s.hilite then hilite_none else "")
        ++ formatProfileNameOrID e.parent_profile e.id_mode s ""
      ∧ ({ e with setting_name := n, value := v, min_value := mn, max_value := mx, writability := w } : ASTSettingsProfileElement).formatImpl s ostr
          = e.formatImpl s ostr := by
  obtain ⟨pp, idm, uik, sn, v0, mn0, mx0, w0⟩ := e
  refine ⟨?_, ?_⟩ <;> cases idm <;>
    simp [ASTSettingsProfileElement.formatImpl, h, formatProfileNameOrID,
      String.append_assoc, String.empty_append]

theorem claim_C1_witness :
    refElem.parent_profile ≠ ""
      ∧ refElem.formatImpl plain "" = "PROFILE \x60default\x60"
      ∧ ({ refElem with setting_name := "n", value := some (.UInt64Val 5), min_value := none, max_value := none, writability := some .WRITABLE } : ASTSettingsProfileElement).formatImpl plain ""
          = refElem.formatImpl plain "" := by
  have h := claim_C1 refElem plain "" "n" (some (.UInt64Val 5)) none none
    (some .WRITABLE) (by decide)
  exact ⟨by decide, h.1.trans (by rfl), h.2⟩

/-- Claim C2: a setting-constraint element (empty `parent_profile`) formats to
the canonicalized setting name first, then its present optional clauses in the
fixed relative order value, MIN, MAX, writability; an absent field contributes
nothing. -/
theorem claim_C2 (e : ASTSettingsProfileElement) (s : FormatSettings) (ostr : String)
    (h : e.parent_profile = "") :
    e.formatImpl s ostr = formatSettingName e.setting_name ostr
      ++ valueClause e.value ++ minClause s e.min_value ++ maxClause s e.max_value
      ++ writabilityClause s e.writability :=
  formatImpl_setting_constraint e s ostr h

theorem claim_C2_witness :
    setElem.parent_profile = ""
      ∧ setElem.formatImpl plain "" = "readonly = 1 MIN 0 MAX 1 CONST" :=
  ⟨rfl, (claim_C2 setElem plain "" rfl).trans (by rfl)⟩

/-- Claim C5: a setting-constraint element whose stored `writability` is the
sentinel `MAX` formats exactly as if `writability` were absent — the
writability clause is a silent no-op and the rest of the output is
unaffected. -/
theorem claim_C5 (e : ASTSettingsProfileElement) (s : FormatSettings) (ostr : String)
    (h1 : e.parent_profile = "") (h2 : e.writability = some .MAX) :
    e.formatImpl s ostr
      = ({ e with writability := none } : ASTSettingsProfileElement).formatImpl s ostr := by
  obtain ⟨pp, idm, uik, sn, v, mn, mx, w⟩ := e
  subst h1
  simp only at h2
  subst h2
  cases v <;> cases mn <;> cases mx <;>
    simp [ASTSettingsProfileElement.formatImpl, formatSettingName]

theorem claim_C5_witness :
    sentinelElem.parent_profile = ""
      ∧ sentinelElem.writability = some .MAX
      ∧ sentinelElem.formatImpl plain ""
          = ({ sentinelElem with writability := none } : ASTSettingsProfileElement).formatImpl
              plain "" :=
  ⟨rfl, rfl, claim_C5 sentinelElem plain "" rfl rfl⟩

/-- Claim C6: the NameOrIdFormatter emits `ID(` + quoted string + `)` when
`is_id` is true and the back-quoted identifier when it is false, for every
string (no validation of the contents). -/
theorem claim_C6 (str : String) (s : FormatSettings) (ostr : String) :
    formatProfileNameOrID str true s ostr
        = ostr ++ (if s.hilite then hilite_keyword else "") ++ "ID"
          ++ (if s.hilite then hilite_none else "") ++ "(" ++ quoteString str ++ ")"
      ∧ formatProfileNameOrID str false s ostr = ostr ++ backQuote str := by
  refine ⟨?_, ?_⟩ <;> simp [formatProfileNameOrID]

/-- Claim C10: an element whose `parent_profile` is set but equal to the empty
string takes the setting-constraint branch, not the profile-reference branch:
it formats as setting name plus optional clauses, and the reference-only
fields `id_mode` and `use_inherit_keyword` have no effect on its output. -/
theorem claim_C10 (e : ASTSettingsProfileElement) (s : FormatSettings) (ostr : String)
    (b c : Bool) (h : e.parent_profile = "") :
    e.formatImpl s ostr = formatSettingName e.setting_name ostr
        ++ valueClause e.value ++ minClause s e.min_value ++ maxClause s e.max_value
        ++ writabilityClause s e.writability
      ∧ ({ e with id_mode := b, use_inherit_keyword := c } :
            ASTSettingsProfileElement).formatImpl s ostr = e.formatImpl s ostr := by
  refine ⟨formatImpl_setting_constraint e s ostr h, ?_⟩
  obtain ⟨pp, idm, uik, sn, v, mn, mx, w⟩ := e
  subst h
  simp [ASTSettingsProfileElement.formatImpl]

theorem claim_C10_witness :
    bareElem.parent_profile = ""
      ∧ bareElem.formatImpl plain "" = "x"
      ∧ ({ bareElem with id_mode := false, use_inherit_keyword := false } :
            ASTSettingsProfileElement).formatImpl plain "" = bareElem.formatImpl plain "" := by
  have h := claim_C10 bareElem plain "" false false rfl
  exact ⟨rfl, h.1.trans (by rfl), h.2⟩

/-- Claim C3: when every element of the list satisfies its own empty predicate
(vacuously so for the zero-element list), the list formatter emits exactly the
keyword `NONE` and nothing else, whatever the list's length. -/
theorem claim_C3 (p : ASTSettingsProfileElement → Bool) (l : ASTSettingsProfileElements)
    (s : FormatSettings) (ostr : String) (h : ∀ e ∈ l.elements, p e = true) :
    l.formatImpl p s ostr = ostr ++ (if s.hilite then hilite_keyword else "") ++ "NONE"
      ++ (if s.hilite then hilite_none else "") := by
  have he : l.empty p = true := by
    show emptyLoop p l.elements = true
    rw [emptyLoop_eq_all]
    exact List.all_eq_true.mpr h
  simp [ASTSettingsProfileElements.formatImpl, he]

theorem claim_C3_witness :
    (⟨[refElem, refElem]⟩ : ASTSettingsProfileElements).formatImpl allEmptyPred plain ""
      = "NONE" :=
  (claim_C3 allEmptyPred ⟨[refElem, refElem]⟩ plain "" (by decide)).trans (by rfl)

/-- Claim C4: a list containing at least one non-empty element formats every
element — individually-empty ones included — in original order, joined by the
separator `", "` with no leading or trailing separator. -/
theorem claim_C4 (p : ASTSettingsProfileElement → Bool) (l : ASTSettingsProfileElements)
    (s : FormatSettings) (ostr : String) (h : ∃ e ∈ l.elements, p e = false) :
    l.formatImpl p s ostr
      = ostr ++ joinSep ", " (l.elements.map fun e => e.formatImpl s "") := by
  obtain ⟨xs⟩ := l
  have he : ASTSettingsProfileElements.empty p ⟨xs⟩ = false := by
    show emptyLoop p xs = false
    rw [emptyLoop_eq_all, List.all_eq_false]
    obtain ⟨e, hmem, hpe⟩ := h
    exact ⟨e, hmem, by simp [hpe]⟩
  cases xs with
  | nil => simp at h
  | cons x rest =>
      simp only [ASTSettingsProfileElements.formatImpl, he, Bool.false_eq_true, if_false]
      rw [formatLoop_false_cons, joinSep_comma]
      simp [String.append_assoc]

theorem claim_C4_witness :
    (⟨[setElem, refElem]⟩ : ASTSettingsProfileElements).formatImpl noneEmptyPred plain ""
      = "readonly = 1 MIN 0 MAX 1 CONST, PROFILE \x60default\x60" :=
  (claim_C4 noneEmptyPred ⟨[setElem, refElem]⟩ plain "" (by decide)).trans (by rfl)

/-- Claim C7 counterexample: an element whose string-literal value itself
contains the writability keyword.  Its formatted output is
`x = \x27CONST\x27 CONST`, in which the keyword `CONST` occurs twice as a
substring, so "contains the exact mapped keyword exactly once as a substring"
fails for this element even though its writability is present and
non-sentinel. -/
theorem claim_C7_counterexample :
    cexElem.parent_profile = "" ∧ cexElem.writability = some .CONST
      ∧ ¬ countOccs "CONST".data (cexElem.formatImpl plain "").data = 1 := by
  refine ⟨rfl, rfl, ?_⟩
  decide

/-- Claim C7 (amended): for a setting-constraint element with present,
non-sentinel writability, the output is the output of the same element with
writability absent followed by exactly one writability clause — a single space
then the mapped keyword, wrapped in highlight markers when highlighting is on.
Hence the keyword occurs preceded by a single space; it need not occur exactly
once in the whole output, since the setting name or a literal's text can also
contain it. -/
theorem claim_C7_amended (e : ASTSettingsProfileElement) (s : FormatSettings) (ostr : String)
    (w : SettingConstraintWritability) (h1 : e.parent_profile = "")
    (h2 : e.writability = some w) (h3 : w ≠ .MAX) :
    e.formatImpl s ostr
      = ({ e with writability := none } : ASTSettingsProfileElement).formatImpl s ostr
        ++ (if s.hilite then hilite_keyword else "") ++ " " ++ writabilityKeyword w
        ++ (if s.hilite then hilite_none else "") := by
  rw [formatImpl_setting_constraint e s ostr h1,
    formatImpl_setting_constraint ({ e with writability := none }) s ostr (by simp [h1]),
    h2, writabilityClause_some s w h3]
  simp [writabilityClause, String.append_assoc, String.empty_append]

theorem claim_C7_amended_witness :
    setElem.parent_profile = "" ∧ setElem.writability = some .CONST
      ∧ SettingConstraintWritability.CONST ≠ SettingConstraintWritability.MAX
      ∧ setElem.formatImpl plain ""
          = ({ setElem with writability := none } : ASTSettingsProfileElement).formatImpl
              plain "" ++ (if plain.hilite then hilite_keyword else "") ++ " "
              ++ writabilityKeyword .CONST ++ (if plain.hilite then hilite_none else "") :=
  ⟨rfl, rfl, by decide, claim_C7_amended setElem plain "" .CONST rfl rfl (by decide)⟩

/-- Claim C8: the bulk flag propagator sets `use_inherit_keyword` to the given
boolean on every element of the list, and applying it again with the same
boolean changes nothing further. -/
theorem claim_C8 (l : ASTSettingsProfileElements) (b : Bool) :
    ((l.setUseInheritKeyword b).elements.all fun e => e.use_inherit_keyword == b) = true
      ∧ (l.setUseInheritKeyword b).setUseInheritKeyword b = l.setUseInheritKeyword b := by
  constructor
  · rw [List.all_eq_true]
    intro e he
    simp only [ASTSettingsProfileElements.setUseInheritKeyword] at he
    obtain ⟨y, hy, rfl⟩ := List.mem_map.mp he
    simp
  · simp only [ASTSettingsProfileElements.setUseInheritKeyword, List.map_map]
    congr 1

/-- Claim C9: formatting is deterministic and idempotent as a two-run
property.  The embedding is a pure function of (node, configuration, stream),
so a run cannot change the node and equal inputs give equal outputs by
construction; the substantive content proved here is that each run appends a
byte sequence independent of the stream contents, so two successive runs of
the element formatter or of the list formatter append byte-identical output. -/
theorem claim_C9 (s : FormatSettings) (p : ASTSettingsProfileElement → Bool)
    (e : ASTSettingsProfileElement) (l : ASTSettingsProfileElements) (ostr : String) :
    e.formatImpl s (e.formatImpl s ostr) = ostr ++ e.formatImpl s "" ++ e.formatImpl s ""
      ∧ l.formatImpl p s (l.formatImpl p s ostr)
          = ostr ++ l.formatImpl p s "" ++ l.formatImpl p s "" := by
  constructor
  · rw [formatImpl_append e s (e.formatImpl s ostr), formatImpl_append e s ostr]
  · rw [listFormatImpl_append p l s (ASTSettingsProfileElements.formatImpl p l s ostr),
      listFormatImpl_append p l s ostr]

end DB
